import Mathlib

/-!
Verification of the supervised fine-tuning data pipeline in
`src/train/train_SFT.py`: prompt templating, tokenization with
prompt-span loss masking, padding collation, and dataset loading.

The external tokenizer is modelled as an abstract capability (an
encoding function together with a pad token id and an end-of-sequence
marker string); everything else is translated from the source.
-/

/-- `IGNORE_INDEX = -100` (train_SFT.py line 42). -/
def IGNORE_INDEX : Int := -100

/-- Abstract tokenizer capability: `encode` models calling the tokenizer on
a single string (the padding mode longest is a no-op on a single text,
and max-length truncation is folded into `encode`); `pad_token_id` and
`eos_token` are the corresponding tokenizer attributes. -/
structure Tokenizer where
  encode : String → List Int
  pad_token_id : Int
  eos_token : String

/-- The non-pad token count of one tokenized string:
`tokenized.input_ids.ne(tokenizer.pad_token_id).sum().item()`
(train_SFT.py line 122). -/
def input_ids_len (tok : Tokenizer) (s : String) : Nat :=
  (tok.encode s).countP (fun x => x != tok.pad_token_id)

/-- Result dictionary of `_tokenize_fn` (labels fields alias the
input-ids fields in the source, so they are not repeated here). -/
structure TokenizeFnResult where
  input_ids : List (List Int)
  input_ids_lens : List Nat
deriving DecidableEq, Repr

/-- `_tokenize_fn` (train_SFT.py lines 108-129): tokenize each string and
record each non-pad token count. -/
def tokenize_fn (tok : Tokenizer) (strings : List String) : TokenizeFnResult :=
  { input_ids := strings.map tok.encode
    input_ids_lens := strings.map (input_ids_len tok) }

/-- `label[:source_len] = IGNORE_INDEX` (train_SFT.py line 143): overwrite
the first `source_len` entries (clipped at the end of the list, as Python
slice assignment is). -/
def maskSourceSpan : Nat → List Int → List Int
  | _, [] => []
  | 0, xs => xs
  | n + 1, _ :: xs => IGNORE_INDEX :: maskSourceSpan n xs

/-- Result dictionary of `preprocess`. -/
structure PreprocessResult where
  input_ids : List (List Int)
  labels : List (List Int)
deriving DecidableEq, Repr

/-- `preprocess` (train_SFT.py lines 132-144): tokenize each `source +
target` concatenation, deep-copy the ids into labels, and mask the label
positions covered by the source span with `IGNORE_INDEX`. -/
def preprocess (tok : Tokenizer) (sources targets : List String) :
    PreprocessResult :=
  let examples := List.zipWith (fun s t => s ++ t) sources targets
  let examples_tokenized := tokenize_fn tok examples
  let sources_tokenized := tokenize_fn tok sources
  { input_ids := examples_tokenized.input_ids
    labels := List.zipWith (fun slen ids => maskSourceSpan slen ids)
      sources_tokenized.input_ids_lens examples_tokenized.input_ids }

-- Basic lemmas about the masking step.

theorem maskSourceSpan_length (n : Nat) (xs : List Int) :
    (maskSourceSpan n xs).length = xs.length := by
  induction xs generalizing n with
  | nil => cases n <;> rfl
  | cons x xs ih =>
    cases n with
    | zero => rfl
    | succ m => simp [maskSourceSpan, ih]

theorem maskSourceSpan_take (n : Nat) (xs : List Int) :
    (maskSourceSpan n xs).take n = List.replicate (min n xs.length) IGNORE_INDEX := by
  induction xs generalizing n with
  | nil => cases n <;> rfl
  | cons x xs ih =>
    cases n with
    | zero => rfl
    | succ m =>
      simp [maskSourceSpan, List.take, ih, List.replicate, Nat.succ_min_succ]

theorem maskSourceSpan_drop (n : Nat) (xs : List Int) :
    (maskSourceSpan n xs).drop n = xs.drop n := by
  induction xs generalizing n with
  | nil => cases n <;> rfl
  | cons x xs ih =>
    cases n with
    | zero => rfl
    | succ m => simp [maskSourceSpan, List.drop, ih]

theorem preprocess_input_ids_eq (tok : Tokenizer) (sources targets : List String) :
    (preprocess tok sources targets).input_ids =
      (List.zipWith (fun s t => s ++ t) sources targets).map tok.encode := rfl

theorem preprocess_labels_eq (tok : Tokenizer) (sources targets : List String) :
    (preprocess tok sources targets).labels =
      List.zipWith (fun slen ids => maskSourceSpan slen ids)
        (sources.map (input_ids_len tok))
        ((List.zipWith (fun s t => s ++ t) sources targets).map tok.encode) := rfl

theorem preprocess_labels_length (tok : Tokenizer) (sources targets : List String) :
    (preprocess tok sources targets).labels.length =
      (preprocess tok sources targets).input_ids.length := by
  simp only [preprocess_input_ids_eq, preprocess_labels_eq, List.length_zipWith,
    List.length_map]
  omega

/-- C1: each example produced by `preprocess` has `labels` and `input_ids`
of equal length; writing `source_len` for the non-pad token count of the
tokenized source alone, the first `source_len` label entries equal
`IGNORE_INDEX` and the remaining entries equal the corresponding
`input_ids` entries. -/
theorem preprocess_masks_source_span (tok : Tokenizer)
    (sources targets : List String) (k : Nat)
    (hk : k < (preprocess tok sources targets).input_ids.length) :
    (preprocess tok sources targets).labels.length =
      (preprocess tok sources targets).input_ids.length ∧
    ((preprocess tok sources targets).labels.getD k []).length =
      ((preprocess tok sources targets).input_ids.getD k []).length ∧
    ((preprocess tok sources targets).labels.getD k []).take
        (input_ids_len tok (sources.getD k "")) =
      List.replicate
        (min (input_ids_len tok (sources.getD k ""))
          ((preprocess tok sources targets).labels.getD k []).length)
        IGNORE_INDEX ∧
    ((preprocess tok sources targets).labels.getD k []).drop
        (input_ids_len tok (sources.getD k "")) =
      ((preprocess tok sources targets).input_ids.getD k []).drop
        (input_ids_len tok (sources.getD k "")) := by
  have hids : k < ((List.zipWith (fun s t => s ++ t) sources targets).map
      tok.encode).length := by
    simpa [preprocess_input_ids_eq] using hk
  have hs : k < sources.length := by
    simp only [List.length_map, List.length_zipWith] at hids
    omega
  have hlab : k < (preprocess tok sources targets).labels.length := by
    rw [preprocess_labels_length]; exact hk
  have hlabD : (preprocess tok sources targets).labels.getD k [] =
      maskSourceSpan (input_ids_len tok (sources.getD k ""))
        ((preprocess tok sources targets).input_ids.getD k []) := by
    rw [preprocess_labels_eq, preprocess_input_ids_eq]
    rw [List.getD_eq_getElem _ _ (by simpa [preprocess_labels_eq] using hlab),
      List.getD_eq_getElem _ _ hids]
    rw [List.getElem_zipWith]
    congr 1
    rw [List.getElem_map, List.getD_eq_getElem _ _ hs]
  refine ⟨preprocess_labels_length tok sources targets, ?_, ?_, ?_⟩
  · rw [hlabD, maskSourceSpan_length]
  · rw [hlabD, maskSourceSpan_take, maskSourceSpan_length]
  · rw [hlabD, maskSourceSpan_drop]

/-- A small concrete tokenizer used for witnesses: each character encodes
to its code point, pad id 0. -/
def tok0 : Tokenizer :=
  { encode := fun s => s.data.map (fun c => (c.toNat : Int))
    pad_token_id := 0
    eos_token := "</s>" }

theorem preprocess_masks_source_span_witness :
    0 < (preprocess tok0 ["ab"] ["cd"]).input_ids.length ∧
    ((preprocess tok0 ["ab"] ["cd"]).labels.length =
      (preprocess tok0 ["ab"] ["cd"]).input_ids.length ∧
    ((preprocess tok0 ["ab"] ["cd"]).labels.getD 0 []).length =
      ((preprocess tok0 ["ab"] ["cd"]).input_ids.getD 0 []).length ∧
    ((preprocess tok0 ["ab"] ["cd"]).labels.getD 0 []).take
        (input_ids_len tok0 (["ab"].getD 0 "")) =
      List.replicate
        (min (input_ids_len tok0 (["ab"].getD 0 ""))
          ((preprocess tok0 ["ab"] ["cd"]).labels.getD 0 []).length)
        IGNORE_INDEX ∧
    ((preprocess tok0 ["ab"] ["cd"]).labels.getD 0 []).drop
        (input_ids_len tok0 (["ab"].getD 0 "")) =
      ((preprocess tok0 ["ab"] ["cd"]).input_ids.getD 0 []).drop
        (input_ids_len tok0 (["ab"].getD 0 ""))) :=
  ⟨by decide, preprocess_masks_source_span tok0 ["ab"] ["cd"] 0 (by decide)⟩

/-- The max sequence length in a batch, as `torch.nn.utils.rnn.pad_sequence`
computes it (0 for an empty batch). -/
def batchMaxLen (seqs : List (List Int)) : Nat :=
  (seqs.map List.length).foldr max 0

/-- `torch.nn.utils.rnn.pad_sequence(seqs, batch_first=True, padding_value)`:
right-pad every sequence with `padding_value` to the batch max length. -/
def pad_sequence (padding_value : Int) (seqs : List (List Int)) :
    List (List Int) :=
  seqs.map (fun s => s ++ List.replicate (batchMaxLen seqs - s.length) padding_value)

/-- The dictionary returned by both collator paths. -/
structure Batch where
  input_ids : List (List Int)
  labels : List (List Int)
  attention_mask : List (List Bool)
deriving DecidableEq, Repr

/-- `DataCollatorForSupervisedDataset.naive__call__` (train_SFT.py lines
212-222): pad the tokenized `input_ids` with the pad id, pad the `labels`
with `IGNORE_INDEX`, and derive `attention_mask = input_ids.ne(pad_id)`. -/
def naiveCall (tok : Tokenizer) (instances : List (List Int × List Int)) :
    Batch :=
  let input_ids := pad_sequence tok.pad_token_id (instances.map (fun p => p.1))
  let labels := pad_sequence IGNORE_INDEX (instances.map (fun p => p.2))
  { input_ids := input_ids
    labels := labels
    attention_mask := input_ids.map (fun row => row.map (fun x => x != tok.pad_token_id)) }

/-- `DataCollatorForSupervisedDataset.__call__` (train_SFT.py lines
224-244): collect the source and target strings from the instances, run
`preprocess`, then pad exactly as the naive path does. -/
def collatorCall (tok : Tokenizer) (instances : List (String × String)) :
    Batch :=
  let sources := instances.map (fun p => p.1)
  let targets := instances.map (fun p => p.2)
  let data_dict := preprocess tok sources targets
  let input_ids := pad_sequence tok.pad_token_id data_dict.input_ids
  let labels := pad_sequence IGNORE_INDEX data_dict.labels
  { input_ids := input_ids
    labels := labels
    attention_mask := input_ids.map (fun row => row.map (fun x => x != tok.pad_token_id)) }

/-- `SupervisedDataset.__getitem__` (train_SFT.py lines 203-204): the item
at index `i` is the pair of the rendered source and target strings. -/
def supervisedGetItem (sources targets : List String) (i : Nat) :
    String × String :=
  (sources.getD i "", targets.getD i "")

theorem length_le_batchMaxLen {s : List Int} {seqs : List (List Int)}
    (h : s ∈ seqs) : s.length ≤ batchMaxLen seqs := by
  induction seqs with
  | nil => cases h
  | cons a rest ih =>
    rcases List.mem_cons.mp h with rfl | h2
    · exact le_max_left _ _
    · exact le_trans (ih h2) (le_max_right _ _)

theorem batchMaxLen_le {seqs : List (List Int)} {L : Nat}
    (h : ∀ s ∈ seqs, s.length ≤ L) : batchMaxLen seqs ≤ L := by
  induction seqs with
  | nil => exact Nat.zero_le L
  | cons a rest ih =>
    refine max_le (h a (List.mem_cons_self a rest)) (ih ?_)
    exact fun s hs => h s (List.mem_cons_of_mem a hs)

theorem mem_pad_sequence_length {pad : Int} {seqs : List (List Int)}
    {row : List Int} (h : row ∈ pad_sequence pad seqs) :
    row.length = batchMaxLen seqs := by
  obtain ⟨s, hs, rfl⟩ := List.mem_map.mp h
  simp [Nat.add_sub_cancel' (length_le_batchMaxLen hs)]

/-- C3: on a non-empty batch of tokenized pairs (each pair of equal
length), the collator right-pads every `input_ids` row with the pad id and
every `labels` row with `IGNORE_INDEX` to the batch max length, all three
output fields have one row per instance with uniform row length equal to
the batch max, and `attention_mask` is the elementwise comparison of
`input_ids` against the pad id. -/
theorem naiveCall_pads_batch (tok : Tokenizer)
    (instances : List (List Int × List Int))
    (hne : instances ≠ [])
    (hlen : ∀ p ∈ instances, (p.1 : List Int).length = (p.2 : List Int).length) :
    (naiveCall tok instances).input_ids =
      instances.map (fun p => p.1 ++ List.replicate
        (batchMaxLen (instances.map (fun q => q.1)) - p.1.length)
        tok.pad_token_id) ∧
    (naiveCall tok instances).labels =
      instances.map (fun p => p.2 ++ List.replicate
        (batchMaxLen (instances.map (fun q => q.1)) - p.2.length)
        IGNORE_INDEX) ∧
    (naiveCall tok instances).attention_mask =
      (naiveCall tok instances).input_ids.map
        (fun row => row.map (fun x => x != tok.pad_token_id)) ∧
    (naiveCall tok instances).input_ids.length = instances.length ∧
    (naiveCall tok instances).labels.length = instances.length ∧
    (naiveCall tok instances).attention_mask.length = instances.length ∧
    (∀ row ∈ (naiveCall tok instances).input_ids,
      row.length = batchMaxLen (instances.map (fun q => q.1))) ∧
    (∀ row ∈ (naiveCall tok instances).labels,
      row.length = batchMaxLen (instances.map (fun q => q.1))) ∧
    (∀ row ∈ (naiveCall tok instances).attention_mask,
      row.length = batchMaxLen (instances.map (fun q => q.1))) := by
  have hmax : batchMaxLen (instances.map (fun q => q.2)) =
      batchMaxLen (instances.map (fun q => q.1)) := by
    unfold batchMaxLen
    rw [List.map_map, List.map_map]
    congr 1
    exact List.map_congr_left (fun p hp => (hlen p hp).symm)
  refine ⟨?_, ?_, rfl, ?_, ?_, ?_, ?_, ?_, ?_⟩
  · simp [naiveCall, pad_sequence, List.map_map, Function.comp]
  · simp only [naiveCall, pad_sequence, List.map_map]
    rw [hmax]
    simp [Function.comp]
  · simp [naiveCall, pad_sequence]
  · simp [naiveCall, pad_sequence]
  · simp [naiveCall, pad_sequence]
  · intro row hrow
    exact mem_pad_sequence_length hrow
  · intro row hrow
    have hrow2 : row ∈ pad_sequence IGNORE_INDEX
        (instances.map (fun q => q.2)) := hrow
    have h : row.length = batchMaxLen (instances.map (fun q => q.2)) :=
      mem_pad_sequence_length hrow2
    rw [h, hmax]
  · intro row hrow
    simp only [naiveCall] at hrow
    obtain ⟨s, hs, rfl⟩ := List.mem_map.mp hrow
    rw [List.length_map]
    exact mem_pad_sequence_length hs

theorem naiveCall_pads_batch_witness :
    ([((1 : Int)::[], (2 : Int)::[])] ≠ ([] : List (List Int × List Int)) ∧
      ∀ p ∈ [((1 : Int)::[], (2 : Int)::[])],
        (p.1 : List Int).length = (p.2 : List Int).length) ∧
    (naiveCall tok0 [((1 : Int)::[], (2 : Int)::[])]).input_ids =
      [((1 : Int)::[], (2 : Int)::[])].map (fun p => p.1 ++ List.replicate
        (batchMaxLen ([((1 : Int)::[], (2 : Int)::[])].map (fun q => q.1)) -
          p.1.length) tok0.pad_token_id) :=
  ⟨⟨by decide, by decide⟩,
    (naiveCall_pads_batch tok0 [((1 : Int)::[], (2 : Int)::[])]
      (by decide) (by decide)).1⟩

/-- C8: on a batch in which all `input_ids` and all `labels` already have
the same length, collation pads nothing: every output row of `input_ids`
and `labels` equals the corresponding input sequence unchanged. -/
theorem naiveCall_noop_on_uniform_batch (tok : Tokenizer) (L : Nat)
    (instances : List (List Int × List Int))
    (hall : ∀ p ∈ instances,
      (p.1 : List Int).length = L ∧ (p.2 : List Int).length = L) :
    (naiveCall tok instances).input_ids = instances.map (fun p => p.1) ∧
    (naiveCall tok instances).labels = instances.map (fun p => p.2) := by
  have hm1 : batchMaxLen (instances.map (fun p => p.1)) ≤ L := by
    refine batchMaxLen_le fun s hs => ?_
    obtain ⟨p, hp, rfl⟩ := List.mem_map.mp hs
    exact le_of_eq (hall p hp).1
  have hm2 : batchMaxLen (instances.map (fun p => p.2)) ≤ L := by
    refine batchMaxLen_le fun s hs => ?_
    obtain ⟨p, hp, rfl⟩ := List.mem_map.mp hs
    exact le_of_eq (hall p hp).2
  constructor
  · simp only [naiveCall, pad_sequence, List.map_map]
    refine List.map_congr_left fun p hp => ?_
    have : batchMaxLen (instances.map (fun p => p.1)) - p.1.length = 0 := by
      have := (hall p hp).1
      omega
    simp [Function.comp, this]
  · simp only [naiveCall, pad_sequence, List.map_map]
    refine List.map_congr_left fun p hp => ?_
    have : batchMaxLen (instances.map (fun p => p.2)) - p.2.length = 0 := by
      have := (hall p hp).2
      omega
    simp [Function.comp, this]

theorem naiveCall_noop_on_uniform_batch_witness :
    (∀ p ∈ [((1 : Int)::2::[], (3 : Int)::4::[]),
            ((5 : Int)::6::[], (7 : Int)::8::[])],
      (p.1 : List Int).length = 2 ∧ (p.2 : List Int).length = 2) ∧
    (naiveCall tok0 [((1 : Int)::2::[], (3 : Int)::4::[]),
            ((5 : Int)::6::[], (7 : Int)::8::[])]).input_ids =
      [((1 : Int)::2::[], (3 : Int)::4::[]),
            ((5 : Int)::6::[], (7 : Int)::8::[])].map (fun p => p.1) :=
  ⟨by decide,
    (naiveCall_noop_on_uniform_batch tok0 2
      [((1 : Int)::2::[], (3 : Int)::4::[]),
            ((5 : Int)::6::[], (7 : Int)::8::[])] (by decide)).1⟩

/-- C9: collating two tokenized examples of token lengths 5 and 8 yields
`input_ids`, `labels` and `attention_mask` of shape `[2, 8]`, and the
first `attention_mask` row holds exactly 5 `true` values (the first
example holds no pad token, as tokenizer output). -/
theorem naiveCall_two_rows_5_8 (tok : Tokenizer) (a1 b1 a2 b2 : List Int)
    (ha1 : a1.length = 5) (hb1 : b1.length = 5)
    (ha2 : a2.length = 8) (hb2 : b2.length = 8)
    (hpad : tok.pad_token_id ∉ a1) :
    (naiveCall tok [(a1, b1), (a2, b2)]).input_ids.length = 2 ∧
    (∀ row ∈ (naiveCall tok [(a1, b1), (a2, b2)]).input_ids,
      row.length = 8) ∧
    (naiveCall tok [(a1, b1), (a2, b2)]).labels.length = 2 ∧
    (∀ row ∈ (naiveCall tok [(a1, b1), (a2, b2)]).labels, row.length = 8) ∧
    (naiveCall tok [(a1, b1), (a2, b2)]).attention_mask.length = 2 ∧
    (∀ row ∈ (naiveCall tok [(a1, b1), (a2, b2)]).attention_mask,
      row.length = 8) ∧
    ((naiveCall tok [(a1, b1), (a2, b2)]).attention_mask.getD 0 []).count
      true = 5 := by
  have hm1 : batchMaxLen [a1, a2] = 8 := by
    simp [batchMaxLen, ha1, ha2]
  have hm2 : batchMaxLen [b1, b2] = 8 := by
    simp [batchMaxLen, hb1, hb2]
  have hmask : (naiveCall tok [(a1, b1), (a2, b2)]).attention_mask.getD 0 [] =
      (a1 ++ List.replicate (batchMaxLen [a1, a2] - a1.length)
        tok.pad_token_id).map (fun x => x != tok.pad_token_id) := by
    simp [naiveCall, pad_sequence]
  refine ⟨?_, ?_, ?_, ?_, ?_, ?_, ?_⟩
  · simp [naiveCall, pad_sequence]
  · intro row hrow
    have : row.length = batchMaxLen [a1, a2] :=
      @mem_pad_sequence_length tok.pad_token_id [a1, a2] row hrow
    rw [this, hm1]
  · simp [naiveCall, pad_sequence]
  · intro row hrow
    have : row.length = batchMaxLen [b1, b2] :=
      @mem_pad_sequence_length IGNORE_INDEX [b1, b2] row hrow
    rw [this, hm2]
  · simp [naiveCall, pad_sequence]
  · intro row hrow
    simp only [naiveCall] at hrow
    obtain ⟨s, hs, rfl⟩ := List.mem_map.mp hrow
    have : s.length = batchMaxLen [a1, a2] :=
      @mem_pad_sequence_length tok.pad_token_id [a1, a2] s hs
    rw [List.length_map, this, hm1]
  · rw [hmask, hm1, ha1, List.map_append, List.count_append,
      List.map_replicate]
    have hfalse : ((tok.pad_token_id != tok.pad_token_id) : Bool) = false := by
      simp
    rw [hfalse]
    have hzero : List.count true (List.replicate (8 - 5) false) = 0 := by
      simp [List.count_replicate]
    rw [hzero, Nat.add_zero]
    have : List.count true (a1.map (fun x => x != tok.pad_token_id)) =
        a1.countP (fun x => x != tok.pad_token_id) := by
      rw [List.count, List.countP_map]
      refine List.countP_congr fun x hx => ?_
      simp [Function.comp]
    rw [this, ← ha1]
    refine List.countP_eq_length.mpr fun x hx => ?_
    exact bne_iff_ne.mpr (fun h : x = tok.pad_token_id => hpad (h ▸ hx))

theorem naiveCall_two_rows_5_8_witness :
    (((1 : Int)::2::3::4::5::[]).length = 5 ∧
      ((11 : Int)::12::13::14::15::[]).length = 5 ∧
      ((1 : Int)::2::3::4::5::6::7::8::[]).length = 8 ∧
      ((11 : Int)::12::13::14::15::16::17::18::[]).length = 8 ∧
      tok0.pad_token_id ∉ ((1 : Int)::2::3::4::5::[])) ∧
    ((naiveCall tok0 [((1 : Int)::2::3::4::5::[],
        (11 : Int)::12::13::14::15::[]),
       ((1 : Int)::2::3::4::5::6::7::8::[],
        (11 : Int)::12::13::14::15::16::17::18::[])]).attention_mask.getD 0
      []).count true = 5 :=
  ⟨⟨by decide, by decide, by decide, by decide, by decide⟩,
    (naiveCall_two_rows_5_8 tok0
      ((1 : Int)::2::3::4::5::[]) ((11 : Int)::12::13::14::15::[])
      ((1 : Int)::2::3::4::5::6::7::8::[])
      ((11 : Int)::12::13::14::15::16::17::18::[])
      (by decide) (by decide) (by decide) (by decide)
      (by decide)).2.2.2.2.2.2⟩

/-- C2: on any batch of items returned by `SupervisedDataset.__getitem__`
(source/target string pairs), the lazy string-collating path `__call__`
produces exactly the batch obtained by first running `preprocess` on those
strings and then collating the tokenized examples with `naive__call__`. -/
theorem collatorCall_refines_preprocess_naiveCall (tok : Tokenizer)
    (sources targets : List String) (idxs : List Nat) :
    collatorCall tok (idxs.map (supervisedGetItem sources targets)) =
      naiveCall tok
        ((preprocess tok
            ((idxs.map (supervisedGetItem sources targets)).map (fun p => p.1))
            ((idxs.map (supervisedGetItem sources targets)).map
              (fun p => p.2))).input_ids.zip
          (preprocess tok
            ((idxs.map (supervisedGetItem sources targets)).map (fun p => p.1))
            ((idxs.map (supervisedGetItem sources targets)).map
              (fun p => p.2))).labels) := by
  have hlen := preprocess_labels_length tok
    ((idxs.map (supervisedGetItem sources targets)).map (fun p => p.1))
    ((idxs.map (supervisedGetItem sources targets)).map (fun p => p.2))
  have h1 : ((preprocess tok
      ((idxs.map (supervisedGetItem sources targets)).map (fun p => p.1))
      ((idxs.map (supervisedGetItem sources targets)).map
        (fun p => p.2))).input_ids.zip
        (preprocess tok
          ((idxs.map (supervisedGetItem sources targets)).map (fun p => p.1))
          ((idxs.map (supervisedGetItem sources targets)).map
            (fun p => p.2))).labels).map (fun p => p.1) =
      (preprocess tok
        ((idxs.map (supervisedGetItem sources targets)).map (fun p => p.1))
        ((idxs.map (supervisedGetItem sources targets)).map
          (fun p => p.2))).input_ids :=
    List.map_fst_zip _ _ (le_of_eq hlen.symm)
  have h2 : ((preprocess tok
      ((idxs.map (supervisedGetItem sources targets)).map (fun p => p.1))
      ((idxs.map (supervisedGetItem sources targets)).map
        (fun p => p.2))).input_ids.zip
        (preprocess tok
          ((idxs.map (supervisedGetItem sources targets)).map (fun p => p.1))
          ((idxs.map (supervisedGetItem sources targets)).map
            (fun p => p.2))).labels).map (fun p => p.2) =
      (preprocess tok
        ((idxs.map (supervisedGetItem sources targets)).map (fun p => p.1))
        ((idxs.map (supervisedGetItem sources targets)).map
          (fun p => p.2))).labels :=
    List.map_snd_zip _ _ (le_of_eq hlen)
  simp only [collatorCall, naiveCall, h1, h2]

/-- The `prompt_input` entry of `PROMPT_DICT` (train_SFT.py lines 47-52)
composed with `format_map` (line 191): the fixed template with the
instruction substituted for its placeholder. -/
def prompt_input (instruction : String) : String :=
  "<|user|>:\n" ++ instruction ++
    "\n<|assistant|>: Let\x27s think step by step and solve the problem with code."

/-- Source rendering (train_SFT.py lines 186-191): empty string for an
empty instruction, otherwise the formatted template. -/
def renderSource (instruction : String) : String :=
  if instruction = "" then "" else prompt_input instruction

/-- Target rendering (train_SFT.py line 192): the f-string appending the
tokenizer end-of-sequence marker to the record output. -/
def renderTarget (tok : Tokenizer) (output : String) : String :=
  output ++ tok.eos_token

/-- One parsed JSON record, viewed through the four keys the loader ever
reads; `none` models a missing (or null) key. -/
structure RawRecord where
  instruction : Option String
  output : Option String
  query : Option String
  response : Option String
deriving DecidableEq, Repr

/-- The Python exceptions the dataset constructor can raise. -/
inductive PyError where
  | indexError
  | keyError
deriving DecidableEq, Repr

/-- The renamed dict built at train_SFT.py line 180: `instruction` is
read from `query` and `output` from `response`; a missing key raises
`KeyError`. -/
def renameOrFail (d : RawRecord) : Except PyError RawRecord :=
  match d.query, d.response with
  | some q, some resp =>
      Except.ok { instruction := some q, output := some resp,
                  query := none, response := none }
  | _, _ => Except.error PyError.keyError

/-- Schema normalization (train_SFT.py lines 173-180): inspect the first
record (raising `IndexError` on an empty list); if it has an
`instruction` key keep the list, otherwise rename every record from the
`query`/`response` shape. -/
def normalizeRecords (l : List RawRecord) : Except PyError (List RawRecord) :=
  match l with
  | [] => Except.error PyError.indexError
  | r :: _ =>
    if r.instruction.isSome then Except.ok l
    else l.mapM renameOrFail

/-- Rendering one record into a (source, target) pair (train_SFT.py lines
186-192): reading a missing `instruction` or `output` key raises
`KeyError`. -/
def renderExample (tok : Tokenizer) (r : RawRecord) :
    Except PyError (String × String) :=
  match r.instruction, r.output with
  | some instr, some out =>
      Except.ok (renderSource instr, renderTarget tok out)
  | _, _ => Except.error PyError.keyError

/-- The source/target construction loops (train_SFT.py lines 186-192). -/
def buildExamples (tok : Tokenizer) (l : List RawRecord) :
    Except PyError (List (String × String)) :=
  l.mapM (renderExample tok)

/-- `random.sample(list_data_dict, len(list_data_dict))` followed by
`list_data_dict[:data_length]` (train_SFT.py lines 165-167): the seeded
stdlib shuffle is an external capability passed in as `shuffle`. -/
def retainedRecords (shuffle : List RawRecord → List RawRecord)
    (records : List RawRecord) (data_length : Nat) : List RawRecord :=
  (shuffle records).take data_length

/-- The record-processing part of `SupervisedDataset.__init__`
(train_SFT.py lines 165-195): shuffle, truncate, normalize the schema,
then render sources and targets. -/
def datasetInit (shuffle : List RawRecord → List RawRecord)
    (tok : Tokenizer) (records : List RawRecord) (data_length : Nat) :
    Except PyError (List (String × String)) :=
  (normalizeRecords (retainedRecords shuffle records data_length)).bind
    (buildExamples tok)

/-- The parse step of `SupervisedDataset.__init__` (train_SFT.py lines
158-163) with `jload` (lines 35-40): try the whole contents as one JSON
document; on failure parse each line separately, with no recovery from a
bad line. The JSON parsers are external capabilities. -/
def loadData (parseArray : String → Option (List RawRecord))
    (parseLine : String → Option RawRecord)
    (splitLines : String → List String) (contents : String) :
    Option (List RawRecord) :=
  match parseArray contents with
  | some d => some d
  | none => (splitLines contents).mapM (fun line => parseLine line.trim)

/-- C4: the rendered source is exactly `""` when the instruction is empty,
and otherwise is the fixed template with the instruction substituted, so
it is non-empty and holds the instruction text verbatim; the target is
exactly the output concatenated with the tokenizer end-of-sequence
marker. -/
theorem renderSource_renderTarget_spec (tok : Tokenizer)
    (instruction output : String) :
    (instruction = "" → renderSource instruction = "") ∧
    (instruction ≠ "" →
      renderSource instruction = prompt_input instruction ∧
      renderSource instruction ≠ "" ∧
      ∃ pre post, renderSource instruction = pre ++ instruction ++ post) ∧
    renderTarget tok output = output ++ tok.eos_token := by
  refine ⟨fun h => by simp [renderSource, h], fun h => ?_, rfl⟩
  have hr : renderSource instruction = prompt_input instruction := by
    simp [renderSource, h]
  refine ⟨hr, ?_, "<|user|>:\n",
    "\n<|assistant|>: Let\x27s think step by step and solve the problem with code.",
    hr.trans rfl⟩
  rw [hr]
  intro heq
  have hlen := congrArg String.length heq
  rw [prompt_input, String.length_append, String.length_append] at hlen
  have h10 : ("<|user|>:\n" : String).length = 10 := rfl
  have h0 : ("" : String).length = 0 := rfl
  omega

theorem renderSource_renderTarget_spec_witness :
    ("Add 1 and 2." : String) ≠ "" ∧
    (renderSource "Add 1 and 2." = prompt_input "Add 1 and 2." ∧
      renderSource "Add 1 and 2." ≠ "" ∧
      ∃ pre post, renderSource "Add 1 and 2." = pre ++ "Add 1 and 2." ++ post) :=
  ⟨by decide,
    (renderSource_renderTarget_spec tok0 "Add 1 and 2." "3").2.1 (by decide)⟩

theorem mapM_renameOrFail_ok (l : List RawRecord)
    (h : ∀ r ∈ l, r.query.isSome ∧ r.response.isSome) :
    l.mapM renameOrFail = Except.ok (l.map (fun d =>
      { instruction := d.query, output := d.response,
        query := none, response := none })) := by
  induction l with
  | nil => rfl
  | cons a rest ih =>
    obtain ⟨hq, hr⟩ := h a (List.mem_cons_self a rest)
    obtain ⟨q, hq2⟩ := Option.isSome_iff_exists.mp hq
    obtain ⟨resp, hr2⟩ := Option.isSome_iff_exists.mp hr
    rw [List.mapM_cons, ih (fun r hr3 => h r (List.mem_cons_of_mem a hr3))]
    simp only [renameOrFail, hq2, hr2, List.map_cons]
    rfl

/-- C5: when every parsed record uses the alternate `query`/`response`
schema, normalization succeeds and renames every record into the
`instruction`/`output` shape, so afterwards every record has an
`instruction` key and a non-null `output` value. -/
theorem normalizeRecords_renames_alternate_schema
    (records : List RawRecord) (hne : records ≠ [])
    (halt : ∀ r ∈ records, r.instruction = none ∧
      r.query.isSome ∧ r.response.isSome) :
    normalizeRecords records =
      Except.ok (records.map (fun d =>
        { instruction := d.query, output := d.response,
          query := none, response := none })) ∧
    ∀ r2 ∈ records.map (fun d =>
        ({ instruction := d.query, output := d.response,
           query := none, response := none } : RawRecord)),
      r2.instruction.isSome ∧ r2.output.isSome := by
  obtain ⟨r0, rest, rfl⟩ := List.exists_cons_of_ne_nil hne
  constructor
  · have h0 : r0.instruction.isSome = false := by
      rw [(halt r0 (List.mem_cons_self r0 rest)).1]; rfl
    rw [normalizeRecords, h0]
    simp only [Bool.false_eq_true, if_false]
    exact mapM_renameOrFail_ok _ (fun r hr => (halt r hr).2)
  · intro r2 hr2
    obtain ⟨d, hd, rfl⟩ := List.mem_map.mp hr2
    exact ⟨(halt d hd).2.1, (halt d hd).2.2⟩

theorem normalizeRecords_renames_alternate_schema_witness :
    (([⟨none, none, some "q1", some "a1"⟩,
       ⟨none, none, some "q2", some "a2"⟩] : List RawRecord) ≠ [] ∧
      ∀ r ∈ ([⟨none, none, some "q1", some "a1"⟩,
       ⟨none, none, some "q2", some "a2"⟩] : List RawRecord),
        r.instruction = none ∧ r.query.isSome ∧ r.response.isSome) ∧
    normalizeRecords [⟨none, none, some "q1", some "a1"⟩,
       ⟨none, none, some "q2", some "a2"⟩] =
      Except.ok (([⟨none, none, some "q1", some "a1"⟩,
       ⟨none, none, some "q2", some "a2"⟩] : List RawRecord).map (fun d =>
        { instruction := d.query, output := d.response,
          query := none, response := none })) :=
  ⟨⟨by decide, by decide⟩,
    (normalizeRecords_renames_alternate_schema
      [⟨none, none, some "q1", some "a1"⟩,
       ⟨none, none, some "q2", some "a2"⟩] (by decide) (by decide)).1⟩

theorem mapM_eq_none_of_mem {α β : Type} (f : α → Option β) (l : List α)
    (x : α) (hx : x ∈ l) (hf : f x = none) : l.mapM f = none := by
  induction l with
  | nil => cases hx
  | cons a rest ih =>
    rcases List.mem_cons.mp hx with rfl | h2
    · rw [List.mapM_cons, hf]
      rfl
    · rw [List.mapM_cons, ih h2]
      cases ha : f a <;> rfl

/-- C6: the loader first parses the whole file as one JSON document; if
that fails it parses the file line by line as newline-delimited JSON; and
if any line then fails to parse, the whole load fails with no dataset and
no partial recovery. -/
theorem loadData_array_then_lines_then_fail
    (parseArray : String → Option (List RawRecord))
    (parseLine : String → Option RawRecord)
    (splitLines : String → List String) (contents : String) :
    (∀ d, parseArray contents = some d →
      loadData parseArray parseLine splitLines contents = some d) ∧
    (parseArray contents = none →
      loadData parseArray parseLine splitLines contents =
        (splitLines contents).mapM (fun line => parseLine line.trim)) ∧
    (parseArray contents = none →
      (∃ line ∈ splitLines contents, parseLine line.trim = none) →
      loadData parseArray parseLine splitLines contents = none) := by
  refine ⟨fun d hd => by simp [loadData, hd],
    fun h => by simp [loadData, h], fun h hfail => ?_⟩
  obtain ⟨line, hmem, hnone⟩ := hfail
  simp only [loadData, h]
  exact mapM_eq_none_of_mem _ _ line hmem hnone

theorem loadData_array_then_lines_then_fail_witness :
    ((fun _ : String => (none : Option (List RawRecord))) "x" = none ∧
      ∃ line ∈ ["bad"],
        (fun _ : String => (none : Option RawRecord)) line.trim = none) ∧
    loadData (fun _ => none) (fun _ => none) (fun _ => ["bad"]) "x" = none :=
  ⟨⟨rfl, "bad", by decide, rfl⟩,
    (loadData_array_then_lines_then_fail (fun _ => none) (fun _ => none)
      (fun _ => ["bad"]) "x").2.2 rfl ⟨"bad", by decide, rfl⟩⟩

/-- C7: the records the loader retains are exactly the first
`data_length` elements of the shuffled (permuted) parse result: the
shuffle happens before truncation, every retained record comes from the
parsed file, and the retained count is the cap clamped by the file size.
Determinism across loads with the same seed and cap is immediate because
`retainedRecords` is a pure function of the shuffle capability, the
records and the cap. -/
theorem retainedRecords_shuffle_then_truncate
    (shuffle : List RawRecord → List RawRecord)
    (records : List RawRecord) (data_length : Nat)
    (hperm : (shuffle records).Perm records) :
    retainedRecords shuffle records data_length =
      (shuffle records).take data_length ∧
    (∀ r ∈ retainedRecords shuffle records data_length, r ∈ records) ∧
    (retainedRecords shuffle records data_length).length =
      min data_length records.length := by
  refine ⟨rfl, ?_, ?_⟩
  · intro r hr
    exact hperm.mem_iff.mp (List.mem_of_mem_take hr)
  · rw [retainedRecords, List.length_take, hperm.length_eq]

theorem retainedRecords_shuffle_then_truncate_witness :
    ((id ([⟨some "a", some "b", none, none⟩,
           ⟨some "c", some "d", none, none⟩] : List RawRecord)).Perm
      [⟨some "a", some "b", none, none⟩,
       ⟨some "c", some "d", none, none⟩]) ∧
    (retainedRecords id
        [⟨some "a", some "b", none, none⟩,
         ⟨some "c", some "d", none, none⟩] 1).length =
      min 1 ([⟨some "a", some "b", none, none⟩,
              ⟨some "c", some "d", none, none⟩] : List RawRecord).length :=
  ⟨List.Perm.refl _,
    (retainedRecords_shuffle_then_truncate id
      [⟨some "a", some "b", none, none⟩,
       ⟨some "c", some "d", none, none⟩] 1 (List.Perm.refl _)).2.2⟩

/-- C10: constructing the dataset from a file parsing to no records, or
with a data-length cap of 0, raises `IndexError` (the constructor
unconditionally reads the first record to detect the schema) instead of
producing an empty dataset. -/
theorem datasetInit_fails_on_empty (shuffle : List RawRecord → List RawRecord)
    (tok : Tokenizer) (records : List RawRecord) (n : Nat)
    (hperm : (shuffle []).Perm []) :
    datasetInit shuffle tok records 0 = Except.error PyError.indexError ∧
    datasetInit shuffle tok [] n = Except.error PyError.indexError := by
  constructor
  · rfl
  · have h0 : shuffle [] = [] := List.Perm.eq_nil hperm
    simp [datasetInit, retainedRecords, h0, normalizeRecords, Except.bind]

theorem datasetInit_fails_on_empty_witness :
    ((id ([] : List RawRecord)).Perm []) ∧
    datasetInit id tok0
      [⟨some "a", some "b", none, none⟩] 0 = Except.error PyError.indexError ∧
    datasetInit id tok0 [] 3 = Except.error PyError.indexError :=
  ⟨List.Perm.refl _,
    (datasetInit_fails_on_empty id tok0
      [⟨some "a", some "b", none, none⟩] 3 (List.Perm.refl _)).1,
    (datasetInit_fails_on_empty id tok0
      [⟨some "a", some "b", none, none⟩] 3 (List.Perm.refl _)).2⟩
